import Mathlib

/-!
Verification development for the container-management tool.

The definitions below are a shallow embedding of `src/manage.rs`: each
translator (`create`, `copy`, `config`, `start`, `stop`, `execute`) and the
orchestrator `build` is translated from the Rust source.  External state is
made explicit:

* `FsState` models the host filesystem as a partial map from path to file
  content; the direct filesystem operations of the source
  (`std::fs::create_dir`, `OpenOptions::create_new`, append writes) act on it.
* Spawned subprocesses are recorded as `Action`s; `runCommand` mirrors the
  source's `run_command`, which spawns, waits, and discards the outcome
  (an `Err` from `spawn` is only printed, the exit status of `wait` is
  ignored), so the executor oracle `ex` never influences control flow.
* The rootfs lookup pipeline `lxc-info --name=N --config=lxc.rootfs.path |
  cut -c 19-` is modelled by an oracle `info : String → String` giving the
  stdout of the `lxc-info` query for a container name, followed by the
  character-slicing and trimming the source performs.
* TOML values reached through `toml::Value::to_string()` are serialized with
  surrounding double quotes (the source strips them back off with
  `trim_matches('"')` in most places); `tomlStr` models this serialization
  for quote-free scalar strings, and manifests are assumed quote-free where
  a proof needs the round trip.
-/

namespace Cmt

/-- The double-quote character, written numerically. -/
def dq : Char := Char.ofNat 34

/-- The single-quote character, written numerically. -/
def squo : Char := Char.ofNat 39

/-- Rust `str::contains(c)` on the character level. -/
def hasChar (c : Char) (s : String) : Prop := c ∈ s.data

instance (c : Char) (s : String) : Decidable (hasChar c s) := by
  unfold hasChar; infer_instance

/-- Number of occurrences of a character in a string. -/
def countChar (c : Char) (s : String) : Nat := s.data.count c

/-- Rust `str::split(c)` on character lists: fields between occurrences of
`c`, never empty, `[[]]` on the empty input. -/
def splitCharL (c : Char) : List Char → List (List Char)
  | [] => [[]]
  | x :: xs =>
    if x = c then [] :: splitCharL c xs
    else
      match splitCharL c xs with
      | r :: rs => (x :: r) :: rs
      | [] => [[x]]

/-- Rust `str::split(c).collect::<Vec<_>>()`. -/
def splitOnChar (c : Char) (s : String) : List String :=
  (splitCharL c s.data).map String.mk

/-- Drop matching characters from both ends of a character list. -/
def trimDrop (p : Char → Bool) (l : List Char) : List Char :=
  ((l.dropWhile p).reverse.dropWhile p).reverse

/-- Rust `str::trim_matches(c)`. -/
def trimCharStr (c : Char) (s : String) : String :=
  String.mk (trimDrop (· == c) s.data)

/-- Rust `str::trim_matches('"')`, as applied to TOML `to_string` output. -/
def trimQuotes (s : String) : String := trimCharStr dq s

/-- Rust `str::trim_matches(x)` for `x = ['.', '"']` (used on copy
destinations in `build`). -/
def trimDotQuotes (s : String) : String :=
  String.mk (trimDrop (fun a => a == '.' || a == dq) s.data)

/-- Rust `str::trim()` restricted to ASCII whitespace (the rootfs query
output in scope is ASCII). -/
def trimWs (s : String) : String :=
  String.mk (trimDrop (fun a => a == ' ' || a == '\t' || a == '\n' || a == '\r') s.data)

/-- Rust `str::replace(a, b)` for one-character patterns. -/
def replaceChar (a b : Char) (s : String) : String :=
  String.mk (s.data.map fun c => if c = a then b else c)

/-- `toml::Value::to_string()` of a string scalar: the value wrapped in
double quotes.  Faithful for values that need no escaping (no embedded
quote or backslash), which is the wellformedness assumption used below. -/
def tomlStr (s : String) : String := String.mk (dq :: s.data ++ [dq])

/-- A string containing no double-quote character, so that `tomlStr`
serialization is faithful and `trimQuotes` inverts it. -/
def QuoteFree (s : String) : Prop := ¬ dq ∈ s.data

instance (s : String) : Decidable (QuoteFree s) := by
  unfold QuoteFree; infer_instance

/-- Drop the first `n` characters (`cut -c 19-` drops 18 per line). -/
def dropChars (n : Nat) (s : String) : String := String.mk (s.data.drop n)

/-- Join lines with newlines (inverse of splitting on newline). -/
def interLines : List String → String
  | [] => ""
  | [x] => x
  | x :: xs => x ++ "\n" ++ interLines xs

/-- The `cut -c 19-` stage of the rootfs lookup pipeline: drop the first 18
characters of every line. -/
def cutFrom19 (s : String) : String :=
  interLines ((splitOnChar '\n' s).map (dropChars 18))

/-- The inline rootfs resolver of `copy` (manage.rs lines 296-306): pipe
the `lxc-info --name=n --config=lxc.rootfs.path` output through
`cut -c 19-`, capture, and trim. -/
def rootfsQuery (info : String → String) (n : String) : String :=
  trimWs (cutFrom19 (info n))

-- ### Basic lemmas about the string layer

theorem str_data_append (s t : String) : (s ++ t).data = s.data ++ t.data := by
  cases s; cases t; rfl

theorem str_mk_data (s : String) : String.mk s.data = s := by
  cases s; rfl

theorem str_eq_of_data {s t : String} (h : s.data = t.data) : s = t := by
  cases s; cases t; exact congrArg String.mk h

theorem str_append_empty (s : String) : s ++ "" = s := by
  apply str_eq_of_data; rw [str_data_append]; simp [show ("" : String).data = [] from rfl]

theorem str_empty_append (s : String) : "" ++ s = s := by
  apply str_eq_of_data; rw [str_data_append]; simp [show ("" : String).data = [] from rfl]

theorem dropWhile_of_none {p : Char → Bool} {l : List Char}
    (h : ∀ a ∈ l, p a = false) : l.dropWhile p = l := by
  induction l with
  | nil => rfl
  | cons x xs ih =>
    rw [List.dropWhile_cons, h x (List.mem_cons_self x xs)]
    simp only [Bool.false_eq_true, if_false]

theorem trimDrop_wrap {p : Char → Bool} {c : Char} {l : List Char}
    (hc : p c = true) (h : ∀ a ∈ l, p a = false) :
    trimDrop p (c :: (l ++ [c])) = l := by
  unfold trimDrop
  rw [List.dropWhile_cons, if_pos hc]
  cases l with
  | nil =>
    rw [List.nil_append, List.dropWhile_cons, if_pos hc]
    rfl
  | cons x xs =>
    have hx : p x = false := h x (List.mem_cons_self x xs)
    rw [List.cons_append, List.dropWhile_cons, if_neg (by simp [hx])]
    have hrev : (x :: (xs ++ [c]) : List Char).reverse = c :: (xs.reverse ++ [x]) := by
      simp
    rw [hrev, List.dropWhile_cons, if_pos hc]
    have hall : ∀ a ∈ xs.reverse ++ [x], p a = false := by
      intro a ha
      rcases List.mem_append.mp ha with h1 | h2
      · exact h a (List.mem_cons_of_mem _ (List.mem_reverse.mp h1))
      · rw [List.mem_singleton.mp h2]; exact hx
    rw [dropWhile_of_none hall]
    simp

theorem trimQuotes_tomlStr {s : String} (h : QuoteFree s) :
    trimQuotes (tomlStr s) = s := by
  unfold trimQuotes trimCharStr tomlStr
  rw [show (String.mk (dq :: s.data ++ [dq])).data = dq :: (s.data ++ [dq]) from rfl]
  rw [trimDrop_wrap (by simp) (fun a ha => by
    simp only [beq_eq_false_iff_ne, ne_eq]
    exact fun hEq => h (hEq ▸ ha))]

theorem splitCharL_ne_nil (c : Char) (l : List Char) : splitCharL c l ≠ [] := by
  induction l with
  | nil => simp [splitCharL]
  | cons x xs ih =>
    unfold splitCharL
    by_cases hx : x = c
    · simp [hx]
    · simp only [hx, if_false]
      match hsp : splitCharL c xs with
      | r :: rs => simp
      | [] => exact absurd hsp ih

theorem splitCharL_of_not_mem {c : Char} {l : List Char} (h : ¬ c ∈ l) :
    splitCharL c l = [l] := by
  induction l with
  | nil => rfl
  | cons x xs ih =>
    have hx : ¬ x = c := fun hEq => h (hEq ▸ List.mem_cons_self x xs)
    rw [splitCharL, if_neg hx, ih fun hm => h (List.mem_cons_of_mem _ hm)]

theorem splitCharL_append {c : Char} {l₁ l₂ : List Char} (h : ¬ c ∈ l₁) :
    splitCharL c (l₁ ++ c :: l₂) = l₁ :: splitCharL c l₂ := by
  induction l₁ with
  | nil => simp [splitCharL]
  | cons x xs ih =>
    have hx : ¬ x = c := fun hEq => h (hEq ▸ List.mem_cons_self x xs)
    rw [List.cons_append, splitCharL, if_neg hx,
      ih fun hm => h (List.mem_cons_of_mem _ hm)]

theorem splitCharL_length (c : Char) (l : List Char) :
    (splitCharL c l).length = l.count c + 1 := by
  induction l with
  | nil => simp [splitCharL]
  | cons x xs ih =>
    by_cases hx : x = c
    · subst hx
      rw [splitCharL, if_pos rfl]
      simp [ih, List.count_cons]
    · rw [splitCharL, if_neg hx]
      match hsp : splitCharL c xs with
      | r :: rs =>
        rw [hsp] at ih
        simp only [List.length_cons] at ih ⊢
        simp [List.count_cons, Ne.symm hx, ← ih]
      | [] => exact absurd hsp (splitCharL_ne_nil c xs)

-- ### Filesystem and process model

/-- The host filesystem as a partial map from path to file content.
Directories are entries whose content is irrelevant (only existence is
consulted, via `Path::exists`). -/
def FsState : Type := String → Option String

/-- Point update of the filesystem map. -/
def fsSet (fs : FsState) (p c : String) : FsState :=
  fun q => if q = p then some c else fs q

/-- One externally visible step performed by the tool, in program order:
a spawned command (`run_command`), a rootfs query subprocess pipeline
(`Exec::shell` in `copy`), a direct `std::fs::create_dir`, the exclusive
creation-and-write of the entrypoint script, its permission change, or an
append to the instance's persistent config file. -/
inductive Action where
  | run (c : String)
  | query (n : String)
  | mkdir (p : String)
  | writeNew (p : String) (content : String)
  | chmod (p : String) (mode : Nat)
  | append (p : String) (line : String)
deriving DecidableEq, Repr

/-- Outcome of spawning one external command: the spawn itself can fail
(`Command::spawn` returns `Err`), or the child exits with a status code. -/
inductive ExecResult where
  | spawnErr
  | exited (code : Nat)
deriving DecidableEq, Repr

/-- manage.rs `run_command` (lines 600-626): split the command line, spawn
it, and match on the result — an `Err` is only printed, an `Ok` child is
waited on with the exit status discarded (`let _ = shell.wait()`).  Either
way the spawn is attempted and nothing is reported to the caller, so both
branches contribute the same trace. -/
def runCommand (ex : String → ExecResult) (c : String) : List Action :=
  match ex c with
  | ExecResult.spawnErr => [Action.run c]
  | ExecResult.exited _ => [Action.run c]

theorem runCommand_eq (ex : String → ExecResult) (c : String) :
    runCommand ex c = [Action.run c] := by
  unfold runCommand
  cases ex c <;> rfl

-- ### Lifecycle primitive translators (manage.rs lines 32-367)

/-- Argument record of the `create` verb (main.rs `CreateArgs`). -/
structure CreateArgs where
  name : String
  config : Option String
  image : String
  dir : Option String
  network : Option String

/-- manage.rs `create` (lines 32-58).  Builds the option string in source
order (config, dir, network); the `dir` arm creates the directory on the
host when it does not exist (a direct filesystem side effect); then the
image string is split on `':'` and fields 0, 1, 2 are indexed without a
bounds check — with fewer than three fields the indexing panics, which is
modelled as a `none` command (the directory effect has already happened). -/
def create (fs : FsState) (a : CreateArgs) : List Action × FsState × Option (List String) :=
  let cfgOpt : String :=
    match a.config with
    | some c => if c ≠ "" then " --config=" ++ c else ""
    | none => ""
  let dirStep : List Action × FsState × String :=
    match a.dir with
    | some d =>
      if d ≠ "" then
        if fs d = none then ([Action.mkdir d], fsSet fs d "", " --dir=" ++ d)
        else ([], fs, " --dir=" ++ d)
      else ([], fs, "")
    | none => ([], fs, "")
  let netOpt : String :=
    match a.network with
    | some n => if n ≠ "" then " --network=" ++ n else ""
    | none => ""
  let opts := cfgOpt ++ dirStep.2.2 ++ netOpt
  let fields := splitOnChar ':' a.image
  if fields.length < 3 then (dirStep.1, dirStep.2.1, none)
  else
    (dirStep.1, dirStep.2.1,
      some ["lxc-create --name=" ++ a.name ++ opts ++ " --template=download -- --dist=" ++
        fields.getD 0 "" ++ " --release=" ++ fields.getD 1 "" ++ " --arch=" ++ fields.getD 2 ""])

/-- Argument record of the `copy` verb (main.rs `CopyArgs`). -/
structure CopyArgs where
  source : String
  destination : String
  archive : Bool
  follow_link : Bool

/-- Location decomposition used by `copy` for both source and destination
(manage.rs lines 292-328): split on `':'`; when the string contains the
separator (and hence more than one field) query the named instance's
rootfs path and concatenate the second field onto the query result;
otherwise use field 0 — the whole string — verbatim.  Returns the names
queried (each one a spawned `lxc-info | cut` pipeline) and the path. -/
def resolveLocation (info : String → String) (s : String) : List String × String :=
  let parts := splitOnChar ':' s
  if hasChar ':' s ∧ 1 < parts.length then
    ([parts.getD 0 ""], rootfsQuery info (parts.getD 0 "") ++ parts.getD 1 "")
  else
    ([], parts.getD 0 "")

/-- Flag string of `copy`: always `--recursive`, then `--dereference` when
following links, then `--archive` (source order, lines 290 and 330-336). -/
def copyOpts (a : CopyArgs) : String :=
  "--recursive" ++ (if a.follow_link then " --dereference" else "") ++
    (if a.archive then " --archive" else "")

/-- manage.rs `copy` (lines 289-342): resolve source then destination via
`resolveLocation`, then emit `cp <opts> <source> <destination>`. -/
def copy (info : String → String) (a : CopyArgs) : List String × List String :=
  let src := resolveLocation info a.source
  let dst := resolveLocation info a.destination
  (src.1 ++ dst.1, ["cp " ++ copyOpts a ++ " " ++ src.2 ++ " " ++ dst.2])

/-- Argument record of the `config` verb (main.rs `ConfigArgs`, the fields
`manage.rs::config` reads). -/
structure ConfigArgs where
  name : String
  state_object : Option (List String)
  config : Option String

/-- manage.rs `config` (lines 344-367): with a state object, an
`lxc-cgroup` write of the first element and, when present, the second;
without one an `lxc-info` query.  Indexing `state_object[0]` on an empty
vector panics, modelled as `none`. -/
def config (a : ConfigArgs) : Option (List String) :=
  match a.state_object with
  | some [] => none
  | some (s0 :: rest) =>
    some ["lxc-cgroup --name=" ++ a.name ++ " " ++ s0 ++
      (match rest with | [] => "" | s1 :: _ => " " ++ s1)]
  | none =>
    some ["lxc-info --name=" ++ a.name ++
      (match a.config with | some c => " --config=" ++ c | none => "")]

/-- Render ` --flag=value` for a present option, nothing for an absent one. -/
def optFlag (flag : String) : Option String → String
  | some v => " --" ++ flag ++ "=" ++ v
  | none => ""

/-- Argument record of the `start` verb (main.rs `StartArgs`). -/
structure StartArgs where
  name : String
  daemon : Bool
  foreground : Bool
  pidfile : Option String
  rcfile : Option String
  console : Option String
  console_log : Option String
  close_all_fds : Bool
  define : Option String
  share_net : Option String
  share_ipc : Option String
  share_uts : Option String
  share_pid : Option String

/-- manage.rs `start` (lines 145-199): a pure string builder over the
options, flags in source order. -/
def start (a : StartArgs) : List String :=
  let o := (if a.daemon then " --daemon" else "") ++
    (if a.foreground then " --foreground" else "") ++
    optFlag "pidfile" a.pidfile ++ optFlag "rcfile" a.rcfile ++
    optFlag "console" a.console ++ optFlag "console-log" a.console_log ++
    (if a.close_all_fds then " --close-all-fds" else "") ++
    optFlag "define" a.define ++ optFlag "share-net" a.share_net ++
    optFlag "share-ipc" a.share_ipc ++ optFlag "share-uts" a.share_uts ++
    optFlag "share-pid" a.share_pid
  ["lxc-start --name=" ++ a.name ++ o]

/-- Argument record of the `stop` verb (main.rs `StopArgs`). -/
structure StopArgs where
  name : String
  reboot : Bool
  nowait : Bool
  timeout : Option Nat
  kill : Bool
  nolock : Bool
  nokill : Bool
  rcfile : Option String

/-- manage.rs `stop` (lines 201-235): a pure string builder over the
options, flags in source order. -/
def stop (a : StopArgs) : List String :=
  let o := (if a.reboot then " --reboot" else "") ++
    (if a.nowait then " --nowait" else "") ++
    (match a.timeout with | some t => " --timeout=" ++ toString t | none => "") ++
    (if a.kill then " --kill" else "") ++ (if a.nolock then " --nolock" else "") ++
    (if a.nokill then " --nokill" else "") ++ optFlag "rcfile" a.rcfile
  ["lxc-stop --name=" ++ a.name ++ o]

/-- Argument record of the `execute` verb (manage.rs reads `command` as a
list joined with spaces). -/
structure ExecuteArgs where
  name : String
  command : List String
  elevated_privileges : Option String
  arch : Option String
  namespaces : Option String
  remount_sys_proc : Option String
  clear_env : Bool
  keep_env : Bool
  pty_log : Option String
  set_var : Bool
  keep_var : Bool
  rcfile : Option String
  uid : Option String
  gid : Option String
  context : Option String

/-- manage.rs `execute` (lines 80-143): a pure string builder, flags in
source order, command words joined with spaces. -/
def execute (a : ExecuteArgs) : List String :=
  let o := optFlag "elevated-privileges" a.elevated_privileges ++
    optFlag "arch" a.arch ++ optFlag "namespaces" a.namespaces ++
    optFlag "remount-sys-proc" a.remount_sys_proc ++
    (if a.clear_env then " --clear-env" else "") ++
    (if a.keep_env then " --keep-env" else "") ++
    optFlag "pty-log" a.pty_log ++
    (if a.set_var then " --set-var" else "") ++
    (if a.keep_var then " --keep-var" else "") ++
    optFlag "rcfile" a.rcfile ++ optFlag "uid" a.uid ++ optFlag "gid" a.gid ++
    optFlag "context" a.context
  ["lxc-attach --name=" ++ a.name ++ " " ++ o ++ " -- " ++
    String.intercalate " " a.command]

-- ### Build manifests (the parsed TOML build file of `build`)

/-- One entry of the `copy` array: `host`, `container`, optional `archive`
and `follow_link` booleans (already defaulted to `false` when the keys are
absent, as `build` does at manage.rs lines 490-503). -/
structure CopySpec where
  host : String
  container : String
  archive : Bool
  follow_link : Bool
deriving DecidableEq, Repr

/-- One entry of the `shared` array: `host` and `container` paths. -/
structure SharedSpec where
  host : String
  container : String
deriving DecidableEq, Repr

/-- The parsed build file, with scalar string values stored raw (without
the surrounding quotes their TOML serialization carries); `build` reads
them back through `toml::Value::to_string()`, modelled by `tomlStr`.
`limits` holds the limits table entries in document order. -/
structure Manifest where
  name : String
  distro : String
  release : String
  arch : String
  imgConfig : Option String
  dir : Option String
  network : Option String
  entrypoint : Option String
  copies : List CopySpec
  shared : List SharedSpec
  runCmds : List String
  limits : List (String × String)
deriving DecidableEq, Repr

-- ### The limits table (toml::map::Map, BTreeMap-backed)

/-- Insertion into a key-sorted association list, replacing on an equal
key: one `BTreeMap::insert`.  `toml::map::Map<String, Value>` is backed by
`std::collections::BTreeMap` (the crate's default), so the parsed limits
table holds its entries in ascending key order regardless of document
order. -/
def insertLimit (kv : String × String) : List (String × String) → List (String × String)
  | [] => [kv]
  | x :: xs =>
    if kv.1 < x.1 then kv :: x :: xs
    else if kv.1 = x.1 then kv :: xs
    else x :: insertLimit kv xs

/-- The limits table as iterated by `for limit in limits_table`: entries
inserted in document order into the BTreeMap, read back sorted by key. -/
def sortLimits (l : List (String × String)) : List (String × String) :=
  l.foldl (fun acc kv => insertLimit kv acc) []

/-- The strict key order underlying the sorted limits table. -/
def keyLt (a b : String × String) : Prop := a.1 < b.1

instance : IsAntisymm (String × String) keyLt :=
  ⟨fun _ _ h₁ h₂ => absurd h₂ (lt_asymm h₁)⟩

instance (a b : String × String) : Decidable (keyLt a b) := by
  unfold keyLt; infer_instance

-- ### The provisioning orchestrator `build` (manage.rs lines 369-598)

/-- The `CreateArgs` that `build` assembles (lines 379-434): the name is
de-quoted, the image triple is re-joined with `':'` from de-quoted fields,
while `config`, `dir` and `network` are passed as their raw
`to_string()` serializations (quotes and all) or as `Some("")` when the
key is absent. -/
def buildCreateArgs (m : Manifest) : CreateArgs :=
  { name := trimQuotes (tomlStr m.name)
  , image := trimQuotes (tomlStr m.distro) ++ ":" ++ trimQuotes (tomlStr m.release) ++
      ":" ++ trimQuotes (tomlStr m.arch)
  , config := some (match m.imgConfig with | some c => tomlStr c | none => "")
  , dir := some (match m.dir with | some d => tomlStr d | none => "")
  , network := some (match m.network with | some n => tomlStr n | none => "") }

/-- The entrypoint script path (lines 446-453): under the raw serialized
`dir` override when one is present (it is never the empty string, because
the serialization keeps its quotes), else under the default rootfs. -/
def entryPath (name dirStr : String) : String :=
  if dirStr ≠ "" then dirStr ++ "/etc/profile.d/lxcapp.sh"
  else "/var/lib/lxc/" ++ name ++ "/rootfs/etc/profile.d/lxcapp.sh"

/-- The entrypoint script content (lines 463-471): a shebang line, then the
entrypoint value stripped of surrounding double then single quotes,
terminated by `writeln!`'s newline. -/
def entryContent (e : String) : String :=
  "#!/bin/sh\n" ++ trimCharStr squo (trimQuotes (tomlStr e)) ++ "\n"

/-- Entrypoint materialization (lines 444-478): only when the manifest has
an entrypoint; the file is opened with `create_new(true)` and the
`unwrap` panics when it already exists (`none`); otherwise the script is
written and made mode `0o555` (r-xr-xr-x). -/
def entryPhase (m : Manifest) (name dirStr : String) (fs : FsState) :
    Option (List Action × FsState) :=
  match m.entrypoint with
  | none => some ([], fs)
  | some e =>
    let p := entryPath name dirStr
    match fs p with
    | some _ => none
    | none =>
      some ([Action.writeNew p (entryContent e), Action.chmod p 0o555],
        fsSet fs p (entryContent e))

/-- The `CopyArgs` that `build` assembles for one copy entry (lines
505-515): source de-quoted, destination prefixed with `name:` and trimmed
of leading/trailing dots and quotes. -/
def buildCopyArgs (name : String) (c : CopySpec) : CopyArgs :=
  { source := trimQuotes (tomlStr c.host)
  , destination := name ++ ":" ++ trimDotQuotes (tomlStr c.container)
  , archive := c.archive
  , follow_link := c.follow_link }

/-- One copy step (lines 506-517): run the `copy` translator (spawning its
rootfs queries) and execute `copy_command[0]`. -/
def copyStep (info : String → String) (ex : String → ExecResult) (name : String)
    (c : CopySpec) : List Action :=
  let r := copy info (buildCopyArgs name c)
  r.1.map Action.query ++ runCommand ex (r.2.headD "")

/-- The copy phase (lines 487-523), in declared order. -/
def copyPhase (info : String → String) (ex : String → ExecResult) (name : String)
    (l : List CopySpec) : List Action :=
  l.flatMap (copyStep info ex name)

/-- The bind-mount line appended for one shared entry (lines 541-546),
newline-terminated by `writeln!`. -/
def mountLine (s : SharedSpec) : String :=
  "lxc.mount.entry = " ++ trimQuotes (tomlStr s.host) ++ " " ++
    trimQuotes (tomlStr s.container) ++ " none bind,create=dir 0 0\n"

/-- Concatenation of the mount lines of a shared section. -/
def mountJoin : List SharedSpec → String
  | [] => ""
  | s :: rest => mountLine s ++ mountJoin rest

/-- The shared-mount phase (lines 526-552), per entry: when the host path
— tested in its raw serialized form, quotes included — does not exist, run
`mkdir -p` on that raw form; then open the instance config file in append
mode (the `unwrap` panics when the file is missing: `none`) and append the
bind-mount line. -/
def sharedPhase (ex : String → ExecResult) (cfg : String) :
    List SharedSpec → FsState → Option (List Action × FsState)
  | [], fs => some ([], fs)
  | s :: rest, fs =>
    let mk : List Action :=
      if fs (tomlStr s.host) = none then
        runCommand ex ("mkdir -p " ++ tomlStr s.host)
      else []
    match fs cfg with
    | none => none
    | some t =>
      match sharedPhase ex cfg rest (fsSet fs cfg (t ++ mountLine s)) with
      | none => none
      | some (acts, fs') =>
        some (mk ++ Action.append cfg (mountLine s) :: acts, fs')

/-- The run phase (lines 562-575): each `cmd`, de-quoted, attached into the
instance. -/
def runPhase (ex : String → ExecResult) (name : String) (l : List String) :
    List Action :=
  l.flatMap fun c =>
    runCommand ex ("lxc-attach " ++ name ++ " -- " ++ trimQuotes (tomlStr c))

/-- The configuration write issued for one limit entry (lines 581-590):
underscores of the key become dots, the value is de-quoted, and
`config(...)[0]` is executed. -/
def limitCmd (name : String) (kv : String × String) : String :=
  match config
      { name := name
      , state_object := some [replaceChar '_' '.' kv.1, trimQuotes (tomlStr kv.2)]
      , config := some "" } with
  | some (c :: _) => c
  | _ => ""

/-- All limit commands, in the sorted iteration order of the limits table. -/
def limitCmds (name : String) (limits : List (String × String)) : List String :=
  (sortLimits limits).map (limitCmd name)

/-- The limit phase (lines 578-592). -/
def limitPhase (ex : String → ExecResult) (name : String)
    (limits : List (String × String)) : List Action :=
  (limitCmds name limits).flatMap (runCommand ex)

/-- manage.rs `build` (lines 369-598): create, entrypoint, start, copy,
shared mounts, stop/start, run, limits, stop/start.  `none` models a panic
(an `unwrap`/index failure) aborting the process; command failures never
abort anything because `run_command` discards them.  Returns the action
trace in program order and the final filesystem. -/
def build (info : String → String) (ex : String → ExecResult) (m : Manifest)
    (fs : FsState) : Option (List Action × FsState) :=
  let name := trimQuotes (tomlStr m.name)
  let dirStr : String := match m.dir with | some d => tomlStr d | none => ""
  let cr := create fs (buildCreateArgs m)
  match cr.2.2 with
  | none => none
  | some cmds =>
    match entryPhase m name dirStr cr.2.1 with
    | none => none
    | some ef =>
      match sharedPhase ex ("/var/lib/lxc/" ++ name ++ "/config") m.shared ef.2 with
      | none => none
      | some sf =>
        some (cr.1 ++ runCommand ex (cmds.headD "") ++ ef.1 ++
          runCommand ex ("lxc-start " ++ name) ++
          copyPhase info ex name m.copies ++
          sf.1 ++
          runCommand ex ("lxc-stop " ++ name) ++ runCommand ex ("lxc-start " ++ name) ++
          runPhase ex name m.runCmds ++
          limitPhase ex name m.limits ++
          runCommand ex ("lxc-stop " ++ name) ++ runCommand ex ("lxc-start " ++ name),
          sf.2)

/-- The action trace of a build (empty when the build panics). -/
def buildTrace (info : String → String) (ex : String → ExecResult) (m : Manifest)
    (fs : FsState) : List Action :=
  match build info ex m fs with
  | some r => r.1
  | none => []

/-- The filesystem after a build (unchanged in the model when it panics). -/
def buildFsAfter (info : String → String) (ex : String → ExecResult) (m : Manifest)
    (fs : FsState) : FsState :=
  match build info ex m fs with
  | some r => r.2
  | none => fs

-- ### Lemmas about the sorted limits table

theorem mem_insertLimit {kv a : String × String} {l : List (String × String)}
    (h : a ∈ insertLimit kv l) : a = kv ∨ a ∈ l := by
  induction l with
  | nil => simpa [insertLimit] using h
  | cons x xs ih =>
    unfold insertLimit at h
    by_cases h1 : kv.1 < x.1
    · rw [if_pos h1] at h
      exact List.mem_cons.mp h
    · rw [if_neg h1] at h
      by_cases h2 : kv.1 = x.1
      · rw [if_pos h2] at h
        rcases List.mem_cons.mp h with h | h
        · exact Or.inl h
        · exact Or.inr (List.mem_cons_of_mem _ h)
      · rw [if_neg h2] at h
        rcases List.mem_cons.mp h with h | h
        · exact Or.inr (h ▸ List.mem_cons_self x xs)
        · rcases ih h with h | h
          · exact Or.inl h
          · exact Or.inr (List.mem_cons_of_mem _ h)

theorem pairwise_insertLimit {kv : String × String} {l : List (String × String)}
    (h : List.Pairwise keyLt l) : List.Pairwise keyLt (insertLimit kv l) := by
  induction l with
  | nil => simp [insertLimit, List.pairwise_singleton]
  | cons x xs ih =>
    rcases List.pairwise_cons.mp h with ⟨hx, hxs⟩
    unfold insertLimit
    by_cases h1 : kv.1 < x.1
    · rw [if_pos h1]
      refine List.pairwise_cons.mpr ⟨?_, h⟩
      intro b hb
      rcases List.mem_cons.mp hb with rfl | hbx
      · exact h1
      · exact lt_trans h1 (hx b hbx)
    · rw [if_neg h1]
      by_cases h2 : kv.1 = x.1
      · rw [if_pos h2]
        refine List.pairwise_cons.mpr ⟨?_, hxs⟩
        intro b hb
        show kv.1 < b.1
        rw [h2]
        exact hx b hb
      · rw [if_neg h2]
        refine List.pairwise_cons.mpr ⟨?_, ih hxs⟩
        intro b hb
        rcases mem_insertLimit hb with rfl | hbxs
        · show x.1 < b.1
          rcases lt_trichotomy b.1 x.1 with h3 | h3 | h3
          · exact absurd h3 h1
          · exact absurd h3 h2
          · exact h3
        · exact hx b hbxs

theorem pairwise_foldl_insert (l : List (String × String)) :
    ∀ acc, List.Pairwise keyLt acc →
      List.Pairwise keyLt (l.foldl (fun acc kv => insertLimit kv acc) acc) := by
  induction l with
  | nil => intro acc h; exact h
  | cons x xs ih => intro acc h; exact ih _ (pairwise_insertLimit h)

theorem sortLimits_pairwise (l : List (String × String)) :
    List.Pairwise keyLt (sortLimits l) :=
  pairwise_foldl_insert l [] List.Pairwise.nil

theorem insertLimit_perm {kv : String × String} {l : List (String × String)}
    (h : ¬ kv.1 ∈ l.map Prod.fst) : List.Perm (insertLimit kv l) (kv :: l) := by
  induction l with
  | nil => simp [insertLimit]
  | cons x xs ih =>
    unfold insertLimit
    by_cases h1 : kv.1 < x.1
    · rw [if_pos h1]
    · rw [if_neg h1]
      have h2 : ¬ kv.1 = x.1 := fun hEq => h (by simp [hEq])
      rw [if_neg h2]
      have hx : ¬ kv.1 ∈ xs.map Prod.fst := fun hm => h (by simp [hm])
      exact ((ih hx).cons x).trans (List.Perm.swap kv x xs)

theorem foldl_insert_perm (l : List (String × String)) :
    ∀ acc, (acc.map Prod.fst ++ l.map Prod.fst).Nodup →
      List.Perm (l.foldl (fun acc kv => insertLimit kv acc) acc) (acc ++ l) := by
  induction l with
  | nil => intro acc _; simp
  | cons x xs ih =>
    intro acc h
    have hxacc : ¬ x.1 ∈ acc.map Prod.fst := by
      intro hm
      exact (List.disjoint_of_nodup_append h) hm (by simp)
    have hperm : List.Perm (insertLimit x acc) (x :: acc) := insertLimit_perm hxacc
    have hkeys : List.Perm ((insertLimit x acc).map Prod.fst)
        (x.1 :: acc.map Prod.fst) := hperm.map Prod.fst
    have p1 : List.Perm (acc.map Prod.fst ++ x.1 :: xs.map Prod.fst)
        (x.1 :: (acc.map Prod.fst ++ xs.map Prod.fst)) := List.perm_middle
    have p2 : List.Perm ((insertLimit x acc).map Prod.fst ++ xs.map Prod.fst)
        (x.1 :: (acc.map Prod.fst ++ xs.map Prod.fst)) := hkeys.append_right _
    have hnodup : ((insertLimit x acc).map Prod.fst ++ xs.map Prod.fst).Nodup := by
      refine p2.symm.nodup (p1.nodup ?_)
      simpa using h
    have step := ih (insertLimit x acc) hnodup
    exact ((step.trans (hperm.append_right xs)).trans List.perm_middle.symm)

theorem sortLimits_perm {l : List (String × String)}
    (h : (l.map Prod.fst).Nodup) : List.Perm (sortLimits l) l :=
  foldl_insert_perm l [] (by simpa)

theorem sortLimits_eq_of_perm {l₁ l₂ : List (String × String)}
    (h : List.Perm l₁ l₂) (hn : (l₁.map Prod.fst).Nodup) :
    sortLimits l₁ = sortLimits l₂ := by
  have hn₂ : (l₂.map Prod.fst).Nodup := (h.map Prod.fst).nodup hn
  have p : List.Perm (sortLimits l₁) (sortLimits l₂) :=
    ((sortLimits_perm hn).trans h).trans (sortLimits_perm hn₂).symm
  exact List.eq_of_perm_of_sorted p (sortLimits_pairwise l₁) (sortLimits_pairwise l₂)

-- ### Lemmas about location resolution and command assembly

theorem str_append_assoc (s t u : String) : s ++ t ++ u = s ++ (t ++ u) := by
  apply str_eq_of_data
  simp [str_data_append]

theorem colon_data : (":" : String).data = [':'] := rfl

theorem data_colon_append (n r : String) :
    (n ++ ":" ++ r).data = n.data ++ ':' :: r.data := by
  simp [str_data_append, colon_data]

theorem splitOnChar_colon {n r : String} (hn : ¬ ':' ∈ n.data) (hr : ¬ ':' ∈ r.data) :
    splitOnChar ':' (n ++ ":" ++ r) = [n, r] := by
  unfold splitOnChar
  rw [data_colon_append, splitCharL_append hn, splitCharL_of_not_mem hr]
  simp [str_mk_data]

theorem splitOnChar_bare {s : String} (h : ¬ ':' ∈ s.data) :
    splitOnChar ':' s = [s] := by
  unfold splitOnChar
  rw [splitCharL_of_not_mem h]
  simp [str_mk_data]

theorem resolveLocation_colon (info : String → String) {n r : String}
    (hn : ¬ ':' ∈ n.data) (hr : ¬ ':' ∈ r.data) :
    resolveLocation info (n ++ ":" ++ r) = ([n], rootfsQuery info n ++ r) := by
  have hhas : hasChar ':' (n ++ ":" ++ r) := by
    unfold hasChar
    rw [data_colon_append]
    exact List.mem_append_right _ (List.mem_cons_self _ _)
  simp only [resolveLocation, splitOnChar_colon hn hr]
  rw [if_pos ⟨hhas, by simp⟩]
  simp [List.getD]

theorem resolveLocation_bare (info : String → String) {s : String}
    (h : ¬ ':' ∈ s.data) : resolveLocation info s = ([], s) := by
  simp only [resolveLocation, splitOnChar_bare h]
  rw [if_neg fun hc => lt_irrefl 1 (by simpa using hc.2)]
  simp [List.getD]

theorem rootfsQuery_of_empty {info : String → String} {n : String}
    (h : info n = "") : rootfsQuery info n = "" := by
  unfold rootfsQuery cutFrom19
  rw [h]
  rfl

theorem splitOnChar_length (c : Char) (s : String) :
    (splitOnChar c s).length = countChar c s + 1 := by
  unfold splitOnChar countChar
  rw [List.length_map, splitCharL_length]

theorem countChar_image (x y z : String) :
    2 ≤ countChar ':' (x ++ ":" ++ y ++ ":" ++ z) := by
  unfold countChar
  simp [str_data_append, colon_data, List.count_append]
  omega

-- ### Lemmas about `create` and the phases of `build`

theorem create_plain (fs : FsState) (nm d r c2 : String)
    (hd : ¬ ':' ∈ d.data) (hr : ¬ ':' ∈ r.data) (hc : ¬ ':' ∈ c2.data) :
    create fs ⟨nm, some "", d ++ ":" ++ r ++ ":" ++ c2, some "", some ""⟩ =
      ([], fs, some ["lxc-create --name=" ++ nm ++
        " --template=download -- --dist=" ++ d ++ " --release=" ++ r ++
        " --arch=" ++ c2]) := by
  have hsplit : splitOnChar ':' (d ++ ":" ++ r ++ ":" ++ c2) = [d, r, c2] := by
    unfold splitOnChar
    have hdata : (d ++ ":" ++ r ++ ":" ++ c2).data =
        d.data ++ ':' :: (r.data ++ ':' :: c2.data) := by
      simp [str_data_append, colon_data]
    rw [hdata, splitCharL_append hd, splitCharL_append hr, splitCharL_of_not_mem hc]
    simp [str_mk_data]
  simp only [create, hsplit]
  simp [List.getD, str_append_empty, str_empty_append]

theorem create_dir_blank_isSome (fs : FsState) (a : CreateArgs)
    (hdir : a.dir = some "") (hcnt : 2 ≤ countChar ':' a.image) :
    ∃ cmds, create fs a = ([], fs, some cmds) := by
  have hlen : ¬ (splitOnChar ':' a.image).length < 3 := by
    rw [splitOnChar_length]
    omega
  simp only [create, hdir]
  rw [if_neg hlen]
  simp

theorem buildCreateArgs_dir (m : Manifest) :
    (buildCreateArgs m).dir = some (match m.dir with | some d => tomlStr d | none => "") :=
  rfl

theorem buildCreateArgs_image (m : Manifest) :
    (buildCreateArgs m).image = trimQuotes (tomlStr m.distro) ++ ":" ++
      trimQuotes (tomlStr m.release) ++ ":" ++ trimQuotes (tomlStr m.arch) :=
  rfl

theorem entryPhase_none {m : Manifest} (h : m.entrypoint = none)
    (name dirStr : String) (fs : FsState) :
    entryPhase m name dirStr fs = some ([], fs) := by
  unfold entryPhase
  rw [h]

-- ### The action trace never depends on the executor's outcomes

theorem copyPhase_ex (info : String → String) (ex ex' : String → ExecResult) :
    ∀ name l, copyPhase info ex name l = copyPhase info ex' name l := by
  intro name l
  unfold copyPhase copyStep
  simp only [runCommand_eq]

theorem sharedPhase_ex (ex ex' : String → ExecResult) (cfg : String) :
    ∀ l fs, sharedPhase ex cfg l fs = sharedPhase ex' cfg l fs := by
  intro l
  induction l with
  | nil => intro fs; rfl
  | cons s rest ih =>
    intro fs
    simp only [sharedPhase, runCommand_eq, ih]

theorem runPhase_ex (ex ex' : String → ExecResult) :
    ∀ name l, runPhase ex name l = runPhase ex' name l := by
  intro name l
  unfold runPhase
  simp only [runCommand_eq]

theorem runCommand_fun (ex : String → ExecResult) :
    runCommand ex = fun c => [Action.run c] :=
  funext (runCommand_eq ex)

theorem limitPhase_ex (ex ex' : String → ExecResult) :
    ∀ name l, limitPhase ex name l = limitPhase ex' name l := by
  intro name l
  unfold limitPhase
  simp only [runCommand_fun]

-- ### What the shared-mount phase does to the config file

theorem sharedPhase_spec (ex : String → ExecResult) (cfg : String) :
    ∀ (l : List SharedSpec) (fs : FsState) (t : String), fs cfg = some t →
      ∃ acts fs', sharedPhase ex cfg l fs = some (acts, fs') ∧
        fs' cfg = some (t ++ mountJoin l) ∧ ∀ p, p ≠ cfg → fs' p = fs p := by
  intro l
  induction l with
  | nil =>
    intro fs t h
    exact ⟨[], fs, rfl, by rw [h, mountJoin, str_append_empty], fun p _ => rfl⟩
  | cons s rest ih =>
    intro fs t h
    have hset : (fsSet fs cfg (t ++ mountLine s)) cfg = some (t ++ mountLine s) := by
      simp [fsSet]
    rcases ih (fsSet fs cfg (t ++ mountLine s)) (t ++ mountLine s) hset with
      ⟨acts, fs', heq, hcfg, hother⟩
    refine ⟨(if fs (tomlStr s.host) = none then
        runCommand ex ("mkdir -p " ++ tomlStr s.host) else []) ++
        Action.append cfg (mountLine s) :: acts, fs', ?_, ?_, ?_⟩
    · simp only [sharedPhase, h, heq]
    · rw [hcfg, mountJoin, str_append_assoc]
    · intro p hp
      rw [hother p hp]
      simp [fsSet, hp]

/-- What `build` does to the filesystem when there is no entrypoint and no
rootfs override: every phase leaves the filesystem alone except the
shared-mount phase, which appends its mount lines to the instance config
file. -/
theorem build_fs_spec (info : String → String) (ex : String → ExecResult)
    (m : Manifest) (fs : FsState) (t : String)
    (h5 : m.entrypoint = none) (h7 : m.dir = none)
    (hcfg : fs ("/var/lib/lxc/" ++ trimQuotes (tomlStr m.name) ++ "/config") = some t) :
    (build info ex m fs).isSome ∧
    buildFsAfter info ex m fs ("/var/lib/lxc/" ++ trimQuotes (tomlStr m.name) ++ "/config") =
      some (t ++ mountJoin m.shared) ∧
    ∀ p, p ≠ "/var/lib/lxc/" ++ trimQuotes (tomlStr m.name) ++ "/config" →
      buildFsAfter info ex m fs p = fs p := by
  obtain ⟨cmds, hcr⟩ := create_dir_blank_isSome fs (buildCreateArgs m)
    (by rw [buildCreateArgs_dir, h7]) (by rw [buildCreateArgs_image]; exact countChar_image _ _ _)
  rcases sharedPhase_spec ex ("/var/lib/lxc/" ++ trimQuotes (tomlStr m.name) ++ "/config")
      m.shared fs t hcfg with ⟨acts, fs', hsh, hc', hother⟩
  have hbuild : build info ex m fs = some (
      [] ++ runCommand ex (cmds.headD "") ++ [] ++
        runCommand ex ("lxc-start " ++ trimQuotes (tomlStr m.name)) ++
        copyPhase info ex (trimQuotes (tomlStr m.name)) m.copies ++
        acts ++
        runCommand ex ("lxc-stop " ++ trimQuotes (tomlStr m.name)) ++
        runCommand ex ("lxc-start " ++ trimQuotes (tomlStr m.name)) ++
        runPhase ex (trimQuotes (tomlStr m.name)) m.runCmds ++
        limitPhase ex (trimQuotes (tomlStr m.name)) m.limits ++
        runCommand ex ("lxc-stop " ++ trimQuotes (tomlStr m.name)) ++
        runCommand ex ("lxc-start " ++ trimQuotes (tomlStr m.name)), fs') := by
    simp only [build, hcr, entryPhase_none h5, hsh]
  refine ⟨by rw [hbuild]; rfl, ?_, ?_⟩
  · unfold buildFsAfter
    rw [hbuild]
    exact hc'
  · intro p hp
    unfold buildFsAfter
    rw [hbuild]
    exact hother p hp

-- ### Concrete fixtures used by witnesses and counterexamples

/-- An empty host filesystem. -/
def fsEmpty : FsState := fun _ => none

/-- An executor on which every spawn fails. -/
def failExec : String → ExecResult := fun _ => ExecResult.spawnErr

/-- An executor on which every command succeeds. -/
def okExec : String → ExecResult := fun _ => ExecResult.exited 0

/-- Query output on a host where every lookup answers with instance `web`
(an 18-column prefix then the rootfs path, as
`lxc-info --config=lxc.rootfs.path` prints it). -/
def infoWeb : String → String := fun _ => "lxc.rootfs.path = /var/lib/lxc/web/rootfs"

/-- Query output for a host with no instances: `lxc-info` prints nothing
to stdout for an unknown or stopped container. -/
def infoNone : String → String := fun _ => ""

-- ### C4: copy location decomposition

/-- C4 (confirmed): `copy` always emits `cp <opts> <src> <dst>` with both
locations put through `resolveLocation`; a `name:relpath` location (both
parts separator-free) resolves to the rootfs query result concatenated
with the relative path, and a separator-free location is used verbatim. -/
theorem copy_location_resolution :
    (∀ (info : String → String) (a : CopyArgs), (copy info a).2 =
      ["cp " ++ copyOpts a ++ " " ++ (resolveLocation info a.source).2 ++ " " ++
        (resolveLocation info a.destination).2]) ∧
    (∀ (info : String → String) (n r : String), ¬ ':' ∈ n.data → ¬ ':' ∈ r.data →
      (resolveLocation info (n ++ ":" ++ r)).2 = rootfsQuery info n ++ r) ∧
    (∀ (info : String → String) (s : String), ¬ ':' ∈ s.data →
      (resolveLocation info s).2 = s) := by
  refine ⟨fun info a => rfl, fun info n r hn hr => ?_, fun info s hs => ?_⟩
  · rw [resolveLocation_colon info hn hr]
  · rw [resolveLocation_bare info hs]

/-- Witness for C4 at concrete locations. -/
theorem copy_location_resolution_witness :
    (¬ ':' ∈ ("web" : String).data) ∧ (¬ ':' ∈ ("/app" : String).data) ∧
    (¬ ':' ∈ ("/hostfile" : String).data) ∧
    (resolveLocation infoWeb ("web" ++ ":" ++ "/app")).2 =
      rootfsQuery infoWeb "web" ++ "/app" ∧
    (resolveLocation infoWeb "/hostfile").2 = "/hostfile" :=
  ⟨by decide, by decide, by decide,
    copy_location_resolution.2.1 infoWeb "web" "/app" (by decide) (by decide),
    copy_location_resolution.2.2 infoWeb "/hostfile" (by decide)⟩

-- ### C5: limit keys dotted, values applied verbatim

/-- C5 (confirmed): each limit entry is applied as an `lxc-cgroup`
configuration write whose key has every underscore replaced by a dot and
whose (quote-free) value is passed unchanged; in particular `cpuset_cpus`
with `"0,3"` is sent as `cpuset.cpus 0,3`. -/
theorem limit_key_dotted_value_verbatim :
    (∀ (nm k v : String), QuoteFree v → limitCmd nm (k, v) =
      "lxc-cgroup --name=" ++ nm ++ " " ++ replaceChar '_' '.' k ++ " " ++ v) ∧
    replaceChar '_' '.' "cpuset_cpus" = "cpuset.cpus" ∧
    limitCmds "web" [("cpuset_cpus", "0,3")] =
      ["lxc-cgroup --name=web cpuset.cpus 0,3"] := by
  refine ⟨fun nm k v hv => ?_, by decide, by decide⟩
  unfold limitCmd config
  simp only [trimQuotes_tomlStr hv]
  apply str_eq_of_data
  simp [str_data_append]

/-- Witness for C5 at the dotted pair of the claim. -/
theorem limit_key_dotted_value_verbatim_witness :
    QuoteFree "0,3" ∧ limitCmd "web" ("cpuset_cpus", "0,3") =
      "lxc-cgroup --name=" ++ "web" ++ " " ++ replaceChar '_' '.' "cpuset_cpus" ++
        " " ++ "0,3" :=
  ⟨by decide, limit_key_dotted_value_verbatim.1 "web" "cpuset_cpus" "0,3" (by decide)⟩

-- ### C6: the translators are not all side-effect-free

/-- C6 counterexample: `create` changes the filesystem (it creates the
`--dir` directory when absent) and `copy` spawns rootfs-query subprocesses
for a container-prefixed location, so the translators are not
side-effect-free string builders on every input. -/
theorem create_and_copy_have_side_effects :
    (create fsEmpty ⟨"c1", none, "alpine:3.19:amd64", some "/tmp/newdir", none⟩).1 =
      [Action.mkdir "/tmp/newdir"] ∧
    (copy infoWeb ⟨"web:/a", "/b", false, false⟩).1 = ["web"] := by
  constructor
  · rfl
  · rfl

/-- C6 (corrected): the translators are deterministic string builders with
stable flag order, but `create` and `copy` are not effect-free.  The
command string built by `create` does not depend on the filesystem, its
only effect is the conditional directory creation of the `--dir` arm, and
`copy`'s spawned queries are exactly the lookups for separator-carrying
locations. -/
theorem translators_deterministic_effects_characterized :
    (∀ (fs fs' : FsState) (a : CreateArgs), (create fs a).2.2 = (create fs' a).2.2) ∧
    (∀ (fs : FsState) (a : CreateArgs), (create fs a).1 =
      (match a.dir with
        | some d => if d ≠ "" ∧ fs d = none then [Action.mkdir d] else []
        | none => [])) ∧
    (∀ (info : String → String) (s : String),
      (resolveLocation info s).1 = [] ↔ ¬ ':' ∈ s.data) ∧
    (∀ (info : String → String) (a : CopyArgs), (copy info a).1 =
      (resolveLocation info a.source).1 ++ (resolveLocation info a.destination).1) := by
  refine ⟨fun fs fs' a => ?_, fun fs a => ?_, fun info s => ?_, fun info a => rfl⟩
  · unfold create
    cases a.dir with
    | none =>
      by_cases hlen : (splitOnChar ':' a.image).length < 3 <;> simp [hlen]
    | some d =>
      by_cases hlen : (splitOnChar ':' a.image).length < 3 <;>
        by_cases hd : d ≠ "" <;>
          by_cases h1 : fs d = none <;>
            by_cases h2 : fs' d = none <;>
              simp [hlen, hd, h1, h2]
  · unfold create
    cases a.dir with
    | none =>
      by_cases hlen : (splitOnChar ':' a.image).length < 3 <;> simp [hlen]
    | some d =>
      by_cases hlen : (splitOnChar ':' a.image).length < 3 <;>
        by_cases hd : d ≠ "" <;>
          by_cases h1 : fs d = none <;>
            simp [hlen, hd, h1]
  · unfold resolveLocation
    by_cases hc : ':' ∈ s.data
    · have hlen : 1 < (splitOnChar ':' s).length := by
        rw [splitOnChar_length]
        have : 0 < countChar ':' s := by
          unfold countChar
          exact List.count_pos_iff.mpr hc
        omega
      rw [if_pos ⟨hc, hlen⟩]
      simp [hc]
    · rw [if_neg fun hand => hc hand.1]
      simp [hc]

-- ### C7: rootfs resolution has no error path

/-- C7 counterexample: resolving the copy source `ghost:/x` on a host
where the instance is unknown (empty query output) produces no error of
any kind — `copy` still returns an ordinary `cp` command in which the bare
relative path `/x` is used as the host-side path. -/
theorem unknown_instance_lookup_unchecked :
    copy infoNone ⟨"ghost:/x", "/tmp/y", false, false⟩ =
      (["ghost"], ["cp --recursive /x /tmp/y"]) := by
  rfl

/-- C7 (corrected): rootfs resolution never reports a typed error: it
always returns the column-19 slice of the query output, trimmed; when the
instance is unknown or not running the query output is empty, the slice is
empty, and the bare relative path is used unchecked (the lookup having
been attempted). -/
theorem rootfs_resolution_has_no_error_path :
    ∀ (info : String → String) (n r : String), ¬ ':' ∈ n.data → ¬ ':' ∈ r.data →
      info n = "" → resolveLocation info (n ++ ":" ++ r) = ([n], r) := by
  intro info n r hn hr hinfo
  rw [resolveLocation_colon info hn hr, rootfsQuery_of_empty hinfo, str_empty_append]

/-- Witness for C7's corrected statement at the unknown instance `ghost`. -/
theorem rootfs_resolution_has_no_error_path_witness :
    (¬ ':' ∈ ("ghost" : String).data) ∧ (¬ ':' ∈ ("/x" : String).data) ∧
    infoNone "ghost" = "" ∧
    resolveLocation infoNone ("ghost" ++ ":" ++ "/x") = (["ghost"], "/x") :=
  ⟨by decide, by decide, rfl,
    rootfs_resolution_has_no_error_path infoNone "ghost" "/x" (by decide) (by decide) rfl⟩

-- ### C9: limit iteration order is deterministic (ascending keys)

/-- C9 (confirmed): the limits table iterates in a deterministic order —
ascending key order, the BTreeMap order of `toml::map::Map` — so the limit
command sequence is the same for any two document orders of the same
entries, and in particular identical across two runs on the same manifest. -/
theorem limit_order_deterministic_sorted :
    ∀ (nm : String) (l₁ l₂ : List (String × String)), List.Perm l₁ l₂ →
      (l₁.map Prod.fst).Nodup →
      limitCmds nm l₁ = limitCmds nm l₂ ∧ List.Pairwise keyLt (sortLimits l₁) := by
  intro nm l₁ l₂ hp hn
  constructor
  · unfold limitCmds
    rw [sortLimits_eq_of_perm hp hn]
  · exact sortLimits_pairwise l₁

/-- Witness for C9 on a two-entry table given in the two document orders. -/
theorem limit_order_deterministic_sorted_witness :
    List.Perm [("swap", "0"), ("cpuset_cpus", "0,3")]
      [("cpuset_cpus", "0,3"), ("swap", "0")] ∧
    ((([("swap", "0"), ("cpuset_cpus", "0,3")] : List (String × String)).map
      Prod.fst).Nodup) ∧
    limitCmds "web" [("swap", "0"), ("cpuset_cpus", "0,3")] =
      limitCmds "web" [("cpuset_cpus", "0,3"), ("swap", "0")] ∧
    List.Pairwise keyLt (sortLimits [("swap", "0"), ("cpuset_cpus", "0,3")]) :=
  ⟨by decide, by decide,
    (limit_order_deterministic_sorted "web" [("swap", "0"), ("cpuset_cpus", "0,3")]
      [("cpuset_cpus", "0,3"), ("swap", "0")] (by decide) (by decide)).1,
    (limit_order_deterministic_sorted "web" [("swap", "0"), ("cpuset_cpus", "0,3")]
      [("cpuset_cpus", "0,3"), ("swap", "0")] (by decide) (by decide)).2⟩

-- ### C10: create is partial in its image string

/-- C10 (confirmed): `create` indexes the first three colon-separated
image fields without a bounds check: it panics — returns no command —
exactly when the image string has fewer than two `':'` separators, and is
total otherwise. -/
theorem create_panics_without_three_image_fields :
    ∀ (fs : FsState) (a : CreateArgs),
      (create fs a).2.2 = none ↔ countChar ':' a.image < 2 := by
  intro fs a
  have hlen : (splitOnChar ':' a.image).length = countChar ':' a.image + 1 :=
    splitOnChar_length ':' a.image
  unfold create
  by_cases hc : (splitOnChar ':' a.image).length < 3
  · rw [if_pos hc]
    simp only [iff_true_intro rfl, true_iff]
    omega
  · rw [if_neg hc]
    simp only [reduceCtorEq, false_iff]
    omega

-- ### C1: command failures never abort the build

/-- C1 (corrected): `run_command` discards both spawn errors and exit
statuses, so the sequence of actions a build performs — and thus the set
of commands issued by every phase — is identical under any two executors;
no step failure aborts anything. -/
theorem build_ignores_executor_outcomes :
    ∀ (info : String → String) (ex ex' : String → ExecResult) (m : Manifest)
      (fs : FsState), build info ex m fs = build info ex' m fs := by
  intro info ex ex' m fs
  unfold build
  simp only [runCommand_fun, copyPhase_ex info ex ex', sharedPhase_ex ex ex',
    runPhase_ex ex ex', limitPhase_ex ex ex']

/-- A manifest with one copy entry, used to exhibit phases running after a
failed create. -/
def mCopyOnly : Manifest :=
  ⟨"web", "alpine", "3.19", "amd64", none, none, none, none,
    [⟨"/srv/app", "/app", false, false⟩], [], [], []⟩

/-- C1 counterexample: with an executor on which every spawn fails — the
create step included — the build still issues the start, copy and restart
commands of all later phases; a failing create does not yield zero copy
invocations. -/
theorem failing_create_still_runs_later_phases :
    failExec ("lxc-create --name=web --template=download -- --dist=alpine" ++
      " --release=3.19 --arch=amd64") = ExecResult.spawnErr ∧
    buildTrace infoWeb failExec mCopyOnly fsEmpty =
      [Action.run ("lxc-create --name=web --template=download -- --dist=alpine" ++
        " --release=3.19 --arch=amd64"),
       Action.run "lxc-start web",
       Action.query "web",
       Action.run "cp --recursive /srv/app /var/lib/lxc/web/rootfs/app",
       Action.run "lxc-stop web", Action.run "lxc-start web",
       Action.run "lxc-stop web", Action.run "lxc-start web"] ∧
    Action.run "cp --recursive /srv/app /var/lib/lxc/web/rootfs/app" ∈
      buildTrace infoWeb failExec mCopyOnly fsEmpty := by
  refine ⟨rfl, by decide, by decide⟩

-- ### C2: the step sequence of an empty manifest

/-- C2 (corrected): a manifest with empty copy/shared/run/limits sections
and no entrypoint (and no optional image settings) issues exactly the six
commands create, start, stop, start, stop, start — `build` runs two
stop/start restart cycles, not one. -/
theorem build_empty_sections_six_steps :
    ∀ (info : String → String) (ex : String → ExecResult) (m : Manifest)
      (fs : FsState),
    m.copies = [] → m.shared = [] → m.runCmds = [] → m.limits = [] →
    m.entrypoint = none → m.imgConfig = none → m.dir = none → m.network = none →
    QuoteFree m.name → QuoteFree m.distro → QuoteFree m.release → QuoteFree m.arch →
    ¬ ':' ∈ m.distro.data → ¬ ':' ∈ m.release.data → ¬ ':' ∈ m.arch.data →
    build info ex m fs = some ([
      Action.run ("lxc-create --name=" ++ m.name ++
        " --template=download -- --dist=" ++ m.distro ++ " --release=" ++
        m.release ++ " --arch=" ++ m.arch),
      Action.run ("lxc-start " ++ m.name), Action.run ("lxc-stop " ++ m.name),
      Action.run ("lxc-start " ++ m.name), Action.run ("lxc-stop " ++ m.name),
      Action.run ("lxc-start " ++ m.name)], fs) := by
  intro info ex m fs h1 h2 h3 h4 h5 h6 h7 h8 hqn hq1 hq2 hq3 hc1 hc2 hc3
  have hargs : buildCreateArgs m =
      ⟨m.name, some "", m.distro ++ ":" ++ m.release ++ ":" ++ m.arch,
        some "", some ""⟩ := by
    unfold buildCreateArgs
    rw [h6, h7, h8, trimQuotes_tomlStr hqn, trimQuotes_tomlStr hq1,
      trimQuotes_tomlStr hq2, trimQuotes_tomlStr hq3]
  simp only [build, hargs, create_plain fs m.name m.distro m.release m.arch hc1 hc2 hc3,
    h7, entryPhase_none h5, h2, sharedPhase, h1, h3, h4, copyPhase, runPhase,
    limitPhase, limitCmds, sortLimits, trimQuotes_tomlStr hqn, runCommand_fun,
    List.flatMap_nil, List.map_nil, List.foldl_nil]
  simp

/-- The empty manifest of the claim's scenario. -/
def mEmpty : Manifest :=
  ⟨"web", "alpine", "3.19", "amd64", none, none, none, none, [], [], [], []⟩

/-- C2 counterexample: on the empty manifest the issued command trace has
six steps (two restart cycles), not the four the claim states. -/
theorem empty_manifest_trace_not_four_steps :
    buildTrace infoWeb okExec mEmpty fsEmpty =
      [Action.run ("lxc-create --name=web --template=download -- --dist=alpine" ++
        " --release=3.19 --arch=amd64"),
       Action.run "lxc-start web", Action.run "lxc-stop web",
       Action.run "lxc-start web", Action.run "lxc-stop web",
       Action.run "lxc-start web"] ∧
    (buildTrace infoWeb okExec mEmpty fsEmpty).length ≠ 4 := by
  refine ⟨by decide, by decide⟩

/-- Witness for C2's corrected statement on the concrete empty manifest. -/
theorem build_empty_sections_six_steps_witness :
    mEmpty.copies = [] ∧ mEmpty.shared = [] ∧ mEmpty.runCmds = [] ∧
    mEmpty.limits = [] ∧ mEmpty.entrypoint = none ∧ mEmpty.imgConfig = none ∧
    mEmpty.dir = none ∧ mEmpty.network = none ∧
    QuoteFree mEmpty.name ∧ QuoteFree mEmpty.distro ∧ QuoteFree mEmpty.release ∧
    QuoteFree mEmpty.arch ∧ (¬ ':' ∈ mEmpty.distro.data) ∧
    (¬ ':' ∈ mEmpty.release.data) ∧ (¬ ':' ∈ mEmpty.arch.data) ∧
    build infoWeb okExec mEmpty fsEmpty = some ([
      Action.run ("lxc-create --name=" ++ mEmpty.name ++
        " --template=download -- --dist=" ++ mEmpty.distro ++ " --release=" ++
        mEmpty.release ++ " --arch=" ++ mEmpty.arch),
      Action.run ("lxc-start " ++ mEmpty.name),
      Action.run ("lxc-stop " ++ mEmpty.name),
      Action.run ("lxc-start " ++ mEmpty.name),
      Action.run ("lxc-stop " ++ mEmpty.name),
      Action.run ("lxc-start " ++ mEmpty.name)], fsEmpty) :=
  ⟨rfl, rfl, rfl, rfl, rfl, rfl, rfl, rfl, by decide, by decide, by decide,
    by decide, by decide, by decide, by decide,
    build_empty_sections_six_steps infoWeb okExec mEmpty fsEmpty rfl rfl rfl rfl
      rfl rfl rfl rfl (by decide) (by decide) (by decide) (by decide) (by decide)
      (by decide) (by decide)⟩

-- ### C3: the entrypoint script path under a rootfs override

/-- A manifest with a rootfs override and an entrypoint. -/
def mEntryDir : Manifest :=
  ⟨"web", "alpine", "3.19", "amd64", none, some "/myroot", none, some "echo hi",
    [], [], [], []⟩

/-- C3 (code bug): with `image.dir = "/myroot"`, `build` materializes the
entrypoint script at the raw `to_string()` serialization of the override —
a path that begins with a literal double-quote character — instead of
under the override directory itself: the script is exclusively created,
with shebang plus body and mode 0o555, but at
`"/myroot"/etc/profile.d/lxcapp.sh`, not `/myroot/etc/profile.d/lxcapp.sh`. -/
theorem entrypoint_script_path_keeps_serialized_quotes :
    Action.writeNew "\x22/myroot\x22/etc/profile.d/lxcapp.sh" "#!/bin/sh\necho hi\n" ∈
      buildTrace infoWeb okExec mEntryDir fsEmpty ∧
    Action.chmod "\x22/myroot\x22/etc/profile.d/lxcapp.sh" 0o555 ∈
      buildTrace infoWeb okExec mEntryDir fsEmpty ∧
    Action.writeNew "/myroot/etc/profile.d/lxcapp.sh" "#!/bin/sh\necho hi\n" ∉
      buildTrace infoWeb okExec mEntryDir fsEmpty ∧
    entryPath "web" (tomlStr "/myroot") = "\x22/myroot\x22/etc/profile.d/lxcapp.sh" := by
  refine ⟨by decide, by decide, by decide, by decide⟩

-- ### C8: shared mounts are append-only and not deduplicated

/-- C8 (confirmed): the shared-mount phase appends one bind-mount line per
`SharedSpec` to the instance's config file, and a second build of the same
manifest against the resulting state appends the same lines again —
duplicate entries, no deduplication. -/
theorem shared_mounts_append_only_no_dedup :
    ∀ (info : String → String) (ex : String → ExecResult) (m : Manifest)
      (fs : FsState) (t : String),
      m.entrypoint = none → m.dir = none → QuoteFree m.name →
      fs ("/var/lib/lxc/" ++ m.name ++ "/config") = some t →
      buildFsAfter info ex m fs ("/var/lib/lxc/" ++ m.name ++ "/config") =
        some (t ++ mountJoin m.shared) ∧
      buildFsAfter info ex m (buildFsAfter info ex m fs)
          ("/var/lib/lxc/" ++ m.name ++ "/config") =
        some (t ++ mountJoin m.shared ++ mountJoin m.shared) := by
  intro info ex m fs t h5 h7 hqn hcfg
  have hq := trimQuotes_tomlStr hqn
  rw [← hq] at hcfg
  have s1 := build_fs_spec info ex m fs t h5 h7 hcfg
  have s2 := build_fs_spec info ex m (buildFsAfter info ex m fs)
    (t ++ mountJoin m.shared) h5 h7 s1.2.1
  rw [hq] at s1 s2
  exact ⟨s1.2.1, s2.2.1⟩

/-- The shared-mount manifest of the claim's scenario. -/
def mShared : Manifest :=
  ⟨"web", "alpine", "3.19", "amd64", none, none, none, none, [],
    [⟨"/data", "/mnt/data"⟩], [], []⟩

/-- A filesystem carrying an (empty) instance config file for `web`. -/
def fsCfg : FsState :=
  fun p => if p = "/var/lib/lxc/web/config" then some "" else none

/-- Witness for C8 on the `/data` scenario: two runs append two identical
mount-entry lines. -/
theorem shared_mounts_append_only_no_dedup_witness :
    mShared.entrypoint = none ∧ mShared.dir = none ∧ QuoteFree mShared.name ∧
    fsCfg ("/var/lib/lxc/" ++ mShared.name ++ "/config") = some "" ∧
    mountJoin mShared.shared =
      "lxc.mount.entry = /data /mnt/data none bind,create=dir 0 0\n" ∧
    (buildFsAfter infoWeb okExec mShared fsCfg
        ("/var/lib/lxc/" ++ mShared.name ++ "/config") =
      some ("" ++ mountJoin mShared.shared) ∧
     buildFsAfter infoWeb okExec mShared (buildFsAfter infoWeb okExec mShared fsCfg)
        ("/var/lib/lxc/" ++ mShared.name ++ "/config") =
      some ("" ++ mountJoin mShared.shared ++ mountJoin mShared.shared)) :=
  ⟨rfl, rfl, by decide, by decide, by decide,
    shared_mounts_append_only_no_dedup infoWeb okExec mShared fsCfg "" rfl rfl
      (by decide) (by decide)⟩

end Cmt
